import Mathlib

/-!
# Verification of the excel-poc stock pipeline

A shallow embedding of the two-step pipeline in `ErKiran/excel-poc`:
`FetchStockData` issues one HTTP GET, checks the status, decodes the JSON
body into `StockAPIResponse`; `GenerateExcelFile` writes a header row and
one data row per `StockData` entry into a single-sheet workbook and saves
it.  Two source variants of the writer exist: an in-memory one using
`SetCellValue` (`src/main.go`) and a streaming one using
`StreamWriter.SetRow` (the second source file).

Go `float64` fields are modelled by `Rat`: the program performs no
floating-point arithmetic — the three numeric fields are decoded from the
JSON body and passed through to the spreadsheet cell unchanged — so the
carrier of numeric values is irrelevant to the properties proved here.
External library calls (`excelize`, `encoding/json`, `os.MkdirAll`,
`filepath`) are modelled by their documented behaviour at the call sites
the program uses; each model carries a comment naming the call it stands
for.
-/

namespace ExcelPoc

/-- `StockData` (src/main.go lines 25–32): one record of the API response.
The three `float64` fields are modelled by `Rat` (see module comment). -/
structure StockData where
  ticker : String
  tickerName : String
  latestPrice : String
  pointsChange : Rat
  percentageChange : Rat
  tradedOfMktCap : Rat
deriving DecidableEq, Repr

/-- `StockAPIResponse` (src/main.go lines 21–23): the wrapper object whose
`response` key holds the entry list.  A Go nil slice is modelled by `[]`. -/
structure StockAPIResponse where
  response : List StockData
deriving DecidableEq, Repr

/-- The zero value of `StockData`, as produced by `var` declarations and by
`encoding/json` before any field is filled. -/
def zeroStockData : StockData :=
  { ticker := "", tickerName := "", latestPrice := "", pointsChange := 0,
    percentageChange := 0, tradedOfMktCap := 0 }

/-- Fixed configuration constants (src/main.go lines 14–19). -/
def stockAPIURL : String := "https://www.onlinekhabar.com/smtm/home/trending"

def dataDir : String := "data"

def excelFile : String := "stock_data.xlsx"

def sheetName : String := "Stock Data"

/-- A value written to a spreadsheet cell.  `excelize` receives either a Go
`string` (stored as text) or a `float64` (stored as a number); the program
passes exactly the struct fields, so these are the only two cases. -/
inductive CellValue where
  | str : String → CellValue
  | num : Rat → CellValue
deriving DecidableEq, Repr

/-- A sheet is modelled as the ordered list of cell writes performed on it:
pairs of the exact cell-address string the Go code constructs and the value
written there.  Every address is written at most once by this program, so
the write list determines the final cell contents. -/
abbrev Sheet := List (String × CellValue)

/-- The fixed header labels (src/main.go line 75). -/
def headers : List String :=
  ["Ticker", "Ticker Name", "Latest Price", "Points Change",
   "Percentage Change", "Traded Of Mkt Cap"]

/-- `fmt.Sprintf("%c1", 'A'+col)` (src/main.go line 77): the character
`'A'+col` followed by the literal `"1"`. -/
def headerCell (col : Nat) : String :=
  String.mk [Char.ofNat ('A'.toNat + col)] ++ "1"

/-- The header loop `for col, header := range headers` of the in-memory
variant (src/main.go lines 76–79): each label is written as text at
`headerCell col`. -/
def headerWrites : Sheet :=
  headers.enum.map fun p => (headerCell p.1, CellValue.str p.2)

/-- `fmt.Sprintf("X%d", r)`: a single column letter followed by the decimal
row number, as produced at src/main.go lines 82–87. -/
def cellAddr (c : Char) (r : Nat) : String :=
  String.mk [c] ++ Nat.repr r

/-- The body of the data loop of the in-memory variant (src/main.go lines
82–87): the six `SetCellValue` calls for one entry at row `r`, columns
`A`–`F`, string fields as text and `float64` fields as numbers. -/
def rowCells (r : Nat) (stock : StockData) : Sheet :=
  [(cellAddr 'A' r, CellValue.str stock.ticker),
   (cellAddr 'B' r, CellValue.str stock.tickerName),
   (cellAddr 'C' r, CellValue.str stock.latestPrice),
   (cellAddr 'D' r, CellValue.num stock.pointsChange),
   (cellAddr 'E' r, CellValue.num stock.percentageChange),
   (cellAddr 'F' r, CellValue.num stock.tradedOfMktCap)]

/-- The data loop `for i, stock := range stocks` (src/main.go lines 81–88)
with the loop index `i` threaded explicitly: the entry at index `i` is
written at row `i + 2`. -/
def writeRows (i : Nat) : List StockData → Sheet
  | [] => []
  | stock :: rest => rowCells (i + 2) stock ++ writeRows (i + 1) rest

/-- The default sheet of a workbook fresh from `excelize.NewFile`. -/
def newFileDefaultSheet : String := "Sheet1"

/-- The sheet name after `f.SetSheetName("Sheet1", sheetName)`
(src/main.go line 73). -/
def generateSheetNameMem : String := sheetName

/-- Sheet content produced by the in-memory variant `GenerateExcelFile`
(src/main.go lines 71–100): the header writes followed by the data-row
writes. -/
def generateSheetMem (stocks : List StockData) : Sheet :=
  headerWrites ++ writeRows 0 stocks

/-- `excelize` column-number to column-name conversion (1 ↦ "A", …,
26 ↦ "Z", 27 ↦ "AA"): the bijective base-26 loop of
`ColumnNumberToName`, with explicit fuel in the first argument so the
recursion is structural; `columnName` supplies ample fuel.
`StreamWriter.SetRow` uses this conversion to address the cells of a
row. -/
def columnNameCore : Nat → Nat → List Char → List Char
  | 0, _, acc => acc
  | fuel + 1, n, acc =>
    if n = 0 then acc
    else columnNameCore fuel ((n - 1) / 26)
      (Char.ofNat ('A'.toNat + (n - 1) % 26) :: acc)

def columnName (n : Nat) : String := String.mk (columnNameCore (n + 1) n [])

/-- `streamWriter.SetRow(cell, vals)` where `cell` is `"A<row>"` (column 1
of `row`, the only shape the streaming variant passes, lines 87 and 93 of
its source): `vals[j]` is written at column `1 + j` of `row`. -/
def setRowA (row : Nat) (vals : List CellValue) : Sheet :=
  vals.enum.map fun p => (columnName (1 + p.1) ++ Nat.repr row, p.2)

/-- The `rowData` slice of the streaming variant (its lines 94–101). -/
def streamRowData (stock : StockData) : List CellValue :=
  [CellValue.str stock.ticker,
   CellValue.str stock.tickerName,
   CellValue.str stock.latestPrice,
   CellValue.num stock.pointsChange,
   CellValue.num stock.percentageChange,
   CellValue.num stock.tradedOfMktCap]

/-- The data loop of the streaming variant (its lines 91–105): one
`SetRow("A%d", rowData)` per entry, at row `i + 2`. -/
def writeRowsStream (i : Nat) : List StockData → Sheet
  | [] => []
  | stock :: rest => setRowA (i + 2) (streamRowData stock) ++ writeRowsStream (i + 1) rest

/-- The sheet name produced by the streaming variant (its lines 75–78):
the default sheet is renamed only when its name differs from the target. -/
def generateSheetNameStream : String :=
  if newFileDefaultSheet ≠ sheetName then sheetName else newFileDefaultSheet

/-- Sheet content produced by the streaming variant `GenerateExcelFile`
(its lines 71–121): the header `SetRow` at `"A1"` followed by the data-row
`SetRow`s. -/
def generateSheetStream (stocks : List StockData) : Sheet :=
  setRowA 1 (headers.map CellValue.str) ++ writeRowsStream 0 stocks

/-! ## Reading back cell addresses

Every cell address this program writes is one uppercase column letter
followed by the decimal row number, so the row of a written cell is
recovered by evaluating the digits after the first character.  `ofDigits`
is the decimal reading of a digit string; the round-trip lemma
`ofDigits_toDigits` below connects it to `Nat.repr`. -/

/-- The numeric value of a decimal digit character. -/
def charToDigit (c : Char) : Nat := c.toNat - '0'.toNat

/-- Decimal evaluation of a digit string, accumulator style. -/
def ofDigitsAux : Nat → List Char → Nat
  | acc, [] => acc
  | acc, c :: cs => ofDigitsAux (acc * 10 + charToDigit c) cs

/-- Decimal evaluation of a digit string. -/
def ofDigits (cs : List Char) : Nat := ofDigitsAux 0 cs

/-- The row number of a written cell address: the decimal value of what
follows the single column letter. -/
def rowOfAddr (a : String) : Nat := ofDigits (a.data.drop 1)

/-- The set of non-empty rows of a sheet: the rows of all written cells. -/
def usedRows (s : Sheet) : Finset Nat :=
  (s.map fun p => rowOfAddr p.1).toFinset

/-! ## JSON decoding model

`FetchStockData` decodes the body with
`json.NewDecoder(resp.Body).Decode(&stockResponse)`.  The body bytes are
modelled as `Option Json`: `none` when the bytes are not well-formed JSON
(a syntax error from the decoder), `some j` when they parse to the value
`j`.  Decoding `j` into the two Go structs follows the documented
`encoding/json` rules at this shape: a JSON null leaves the target value
unchanged and is not an error; object keys are matched to the struct
field's tag ASCII-case-insensitively, later duplicates overwriting earlier
ones; unknown keys are ignored; a type mismatch is an error. -/

/-- A parsed JSON value.  Numbers are carried as `Rat` (see module
comment). -/
inductive Json where
  | null
  | bool (b : Bool)
  | num (q : Rat)
  | str (s : String)
  | arr (elems : List Json)
  | obj (fields : List (String × Json))

/-- Key matching of `encoding/json`: an exact match on the field tag is
preferred, with an ASCII-case-insensitive fallback (both the tags and the
keys this program meets are ASCII). -/
def keyMatches (k tag : String) : Bool :=
  k == tag || k.toLower == tag.toLower

/-- Decoding one object member into a `StockData` under construction:
the six tagged fields accept a string (resp. number) or null; an unknown
key is ignored; a mismatched type is an error. -/
def setStockField (acc : StockData) (k : String) (v : Json) :
    Except String StockData :=
  if keyMatches k "ticker" then
    match v with
    | Json.str s => Except.ok { acc with ticker := s }
    | Json.null => Except.ok acc
    | _ => Except.error "cannot unmarshal value into field ticker of type string"
  else if keyMatches k "ticker_name" then
    match v with
    | Json.str s => Except.ok { acc with tickerName := s }
    | Json.null => Except.ok acc
    | _ => Except.error "cannot unmarshal value into field ticker_name of type string"
  else if keyMatches k "latest_price" then
    match v with
    | Json.str s => Except.ok { acc with latestPrice := s }
    | Json.null => Except.ok acc
    | _ => Except.error "cannot unmarshal value into field latest_price of type string"
  else if keyMatches k "points_change" then
    match v with
    | Json.num q => Except.ok { acc with pointsChange := q }
    | Json.null => Except.ok acc
    | _ => Except.error "cannot unmarshal value into field points_change of type float64"
  else if keyMatches k "percentage_change" then
    match v with
    | Json.num q => Except.ok { acc with percentageChange := q }
    | Json.null => Except.ok acc
    | _ => Except.error "cannot unmarshal value into field percentage_change of type float64"
  else if keyMatches k "traded_of_mkt_cap" then
    match v with
    | Json.num q => Except.ok { acc with tradedOfMktCap := q }
    | Json.null => Except.ok acc
    | _ => Except.error "cannot unmarshal value into field traded_of_mkt_cap of type float64"
  else
    Except.ok acc

/-- Decoding a JSON value into a fresh `StockData`: null leaves the zero
value, an object is folded member by member, anything else is a type
error. -/
def decodeStockData (j : Json) : Except String StockData :=
  match j with
  | Json.null => Except.ok zeroStockData
  | Json.obj fields =>
      fields.foldlM (fun acc kv => setStockField acc kv.1 kv.2) zeroStockData
  | _ => Except.error "cannot unmarshal value into Go value of type main.StockData"

/-- Decoding one object member into the `StockAPIResponse` wrapper: the
`response` key takes an array of entries (or null, leaving the nil slice);
any other key is ignored. -/
def setResponseField (acc : StockAPIResponse) (k : String) (v : Json) :
    Except String StockAPIResponse :=
  if keyMatches k "response" then
    match v with
    | Json.null => Except.ok acc
    | Json.arr es =>
        (es.mapM decodeStockData).map fun l => { response := l }
    | _ => Except.error "cannot unmarshal value into field Response of type list"
  else
    Except.ok acc

/-- Decoding the whole body value into `StockAPIResponse`
(src/main.go lines 53–56). -/
def decodeStockAPIResponse (j : Json) : Except String StockAPIResponse :=
  match j with
  | Json.null => Except.ok { response := [] }
  | Json.obj fields =>
      fields.foldlM (fun acc kv => setResponseField acc kv.1 kv.2)
        { response := [] }
  | _ => Except.error "cannot unmarshal value into Go value of type main.StockAPIResponse"

/-! ## Fetcher model -/

/-- The observable part of a completed HTTP response: its status code and
its body, the latter as `Option Json` (see the JSON section comment). -/
structure HTTPResponse where
  statusCode : Nat
  body : Option Json

/-- Outcome of `http.Get(s.apiURL)` (src/main.go line 43): either a
transport error or a response. -/
inductive HTTPResult where
  | transportErr (msg : String)
  | ok (resp : HTTPResponse)

/-- The three error shapes of `FetchStockData`, one per `fmt.Errorf` call
site (src/main.go lines 45, 50, 55). -/
inductive FetchError where
  | transport (msg : String)
  | status (code : Nat)
  | decode (msg : String)
deriving DecidableEq, Repr

/-- `http.StatusOK`. -/
def httpStatusOK : Nat := 200

/-- Resource event of the fetcher: the `defer resp.Body.Close()` firing
(src/main.go line 47). -/
inductive FetchEvent where
  | closeBody
deriving DecidableEq, Repr

/-- `FetchStockData` (src/main.go lines 42–59) together with its resource
trace.  On a transport error the function returns before the `defer` is
registered (`resp` is nil), so the trace is empty; on every path after a
successful `Get` the deferred `resp.Body.Close()` runs exactly at the
return, so each such branch appends one `closeBody`. -/
def fetchStockDataRun (r : HTTPResult) :
    Except FetchError (List StockData) × List FetchEvent :=
  match r with
  | HTTPResult.transportErr msg =>
      (Except.error (FetchError.transport msg), [])
  | HTTPResult.ok resp =>
      if resp.statusCode ≠ httpStatusOK then
        (Except.error (FetchError.status resp.statusCode), [FetchEvent.closeBody])
      else
        match resp.body with
        | none =>
            (Except.error (FetchError.decode "invalid JSON"), [FetchEvent.closeBody])
        | some j =>
            match decodeStockAPIResponse j with
            | Except.error m =>
                (Except.error (FetchError.decode m), [FetchEvent.closeBody])
            | Except.ok sr =>
                (Except.ok sr.response, [FetchEvent.closeBody])

/-- The value returned by `FetchStockData`. -/
def fetchStockData (r : HTTPResult) : Except FetchError (List StockData) :=
  (fetchStockDataRun r).1

/-! ## Writer effect model -/

/-- Success flags for the two filesystem calls `GenerateExcelFile` makes:
`os.MkdirAll` on the parent directory and `f.SaveAs` on the file path. -/
structure FSWorld where
  mkdirAllOk : Bool
  saveAsOk : Bool

/-- The error shapes of the in-memory `GenerateExcelFile`, one per
`fmt.Errorf` call site (src/main.go lines 91, 95). -/
inductive GenError where
  | createDir (msg : String)
  | saveFile (msg : String)
deriving DecidableEq, Repr

/-- Filesystem events of the writer, in the order attempted. -/
inductive FSEvent where
  | mkdirAll (dir : String)
  | saveAs (path : String)
deriving DecidableEq, Repr

/-- `filepath.Join(directory, filename)` (src/main.go line 67) for the
non-empty, already-clean components this program passes: the two joined
with the separator. -/
def filepathJoin (dir file : String) : String := dir ++ "/" ++ file

/-- `filepath.Dir(p)` (src/main.go line 90) for the cleaned paths this
program passes: everything before the last separator, `"."` when there is
none, `"/"` for a file at the root. -/
def filepathDir (p : String) : String :=
  let pre := ((p.data.reverse.dropWhile fun c => c ≠ '/').drop 1).reverse
  if p.data.contains '/' then
    (if pre = [] then "/" else String.mk pre)
  else "."

/-- The `filePath` field of the `ExcelGenerator` built by `main`
(src/main.go lines 65–69, 105). -/
def excelGeneratorFilePath : String := filepathJoin dataDir excelFile

/-- Outcome of one `GenerateExcelFile` call: the returned value (`ok`
carries the saved path named by the success notice), the filesystem events
attempted, and the sheet persisted by a successful `SaveAs`. -/
structure GenOutcome where
  result : Except GenError String
  events : List FSEvent
  savedSheet : Option (String × Sheet)

/-- The in-memory `GenerateExcelFile` (src/main.go lines 71–100): the
sheet content is built unconditionally, then `os.MkdirAll(filepath.Dir
(e.filePath), …)` is attempted, and only if it succeeds is `f.SaveAs
(e.filePath)` attempted; each failure returns its own error shape. -/
def generateExcelFileRun (w : FSWorld) (stocks : List StockData) : GenOutcome :=
  let content := generateSheetMem stocks
  let dir := filepathDir excelGeneratorFilePath
  if w.mkdirAllOk then
    if w.saveAsOk then
      { result := Except.ok excelGeneratorFilePath
        events := [FSEvent.mkdirAll dir, FSEvent.saveAs excelGeneratorFilePath]
        savedSheet := some (generateSheetNameMem, content) }
    else
      { result := Except.error (GenError.saveFile "failed to save Excel file")
        events := [FSEvent.mkdirAll dir, FSEvent.saveAs excelGeneratorFilePath]
        savedSheet := none }
  else
    { result := Except.error (GenError.createDir "failed to create directory")
      events := [FSEvent.mkdirAll dir]
      savedSheet := none }

/-! ## main -/

/-- The external inputs of one program run. -/
structure World where
  http : HTTPResult
  fs : FSWorld

/-- Termination modes of `main` (src/main.go lines 102–115): a
`log.Fatalf` after a fetch error, a `log.Fatalf` after a writer error, or
normal termination with the success notice. -/
inductive MainOutcome where
  | fatalFetch (e : FetchError)
  | fatalGenerate (e : GenError)
  | success (path : String)
deriving DecidableEq, Repr

/-- Observable events of one `main` run. -/
inductive MainEvent where
  | fetchCall
  | generateCall
  | fsEvent (e : FSEvent)
deriving DecidableEq, Repr

/-- `main` (src/main.go lines 102–115): fetch, and only on success invoke
the writer; `log.Fatalf` terminates the process at the first error. -/
def mainRun (w : World) : MainOutcome × List MainEvent :=
  match fetchStockData w.http with
  | Except.error e => (MainOutcome.fatalFetch e, [MainEvent.fetchCall])
  | Except.ok stocks =>
      let o := generateExcelFileRun w.fs stocks
      match o.result with
      | Except.error e =>
          (MainOutcome.fatalGenerate e,
           MainEvent.fetchCall :: MainEvent.generateCall :: o.events.map MainEvent.fsEvent)
      | Except.ok p =>
          (MainOutcome.success p,
           MainEvent.fetchCall :: MainEvent.generateCall :: o.events.map MainEvent.fsEvent)

/-! ## Digit round-trip lemmas -/

lemma charToDigit_digitChar {m : Nat} (h : m < 10) :
    charToDigit (Nat.digitChar m) = m := by
  interval_cases m <;> decide

lemma ofDigitsAux_toDigitsCore (fuel : Nat) :
    ∀ n ds, n < 10 ^ fuel →
      ofDigitsAux 0 (Nat.toDigitsCore 10 fuel n ds) = ofDigitsAux n ds := by
  induction fuel with
  | zero =>
      intro n ds h
      interval_cases n
      rfl
  | succ fuel ih =>
      intro n ds h
      by_cases hn : n / 10 = 0
      · have hlt : n < 10 := by omega
        simp only [Nat.toDigitsCore, hn, if_pos]
        show ofDigitsAux (0 * 10 + charToDigit (Nat.digitChar (n % 10))) ds
          = ofDigitsAux n ds
        rw [charToDigit_digitChar (Nat.mod_lt n (by norm_num))]
        congr 1
        omega
      · simp only [Nat.toDigitsCore, hn, if_neg, not_false_iff]
        have hdiv : n / 10 < 10 ^ fuel := by
          rw [Nat.div_lt_iff_lt_mul (by norm_num : (0:Nat) < 10)]
          calc n < 10 ^ (fuel + 1) := h
            _ = 10 ^ fuel * 10 := by ring
        rw [ih (n / 10) (Nat.digitChar (n % 10) :: ds) hdiv]
        show ofDigitsAux (n / 10 * 10 + charToDigit (Nat.digitChar (n % 10))) ds
          = ofDigitsAux n ds
        rw [charToDigit_digitChar (Nat.mod_lt n (by norm_num))]
        congr 1
        omega

lemma ofDigits_toDigits (n : Nat) : ofDigits (Nat.toDigits 10 n) = n := by
  have h : n < 10 ^ (n + 1) := by
    calc n < 10 ^ n := Nat.lt_pow_self (by norm_num) n
      _ ≤ 10 ^ (n + 1) := Nat.pow_le_pow_right (by norm_num) (Nat.le_succ n)
  show ofDigitsAux 0 (Nat.toDigitsCore 10 (n + 1) n []) = n
  rw [ofDigitsAux_toDigitsCore (n + 1) n [] h]
  rfl

lemma rowOfAddr_cellAddr (c : Char) (r : Nat) : rowOfAddr (cellAddr c r) = r := by
  show ofDigits ((String.mk [c] ++ Nat.repr r).data.drop 1) = r
  have hdata : (String.mk [c] ++ Nat.repr r).data = c :: Nat.toDigits 10 r := rfl
  rw [hdata]
  show ofDigits (Nat.toDigits 10 r) = r
  exact ofDigits_toDigits r

lemma rowOfAddr_headerCell (col : Nat) : rowOfAddr (headerCell col) = 1 := rfl

/-! ## Sheet structure lemmas -/

lemma headerWrites_eq :
    headerWrites =
      [("A1", CellValue.str "Ticker"), ("B1", CellValue.str "Ticker Name"),
       ("C1", CellValue.str "Latest Price"), ("D1", CellValue.str "Points Change"),
       ("E1", CellValue.str "Percentage Change"),
       ("F1", CellValue.str "Traded Of Mkt Cap")] := by
  decide

lemma usedRows_append (s t : Sheet) :
    usedRows (s ++ t) = usedRows s ∪ usedRows t := by
  simp [usedRows]

lemma usedRows_headerWrites : usedRows headerWrites = {1} := by decide

lemma usedRows_rowCells (r : Nat) (s : StockData) :
    usedRows (rowCells r s) = {r} := by
  simp [usedRows, rowCells, rowOfAddr_cellAddr]

lemma usedRows_writeRows (stocks : List StockData) :
    ∀ i, usedRows (writeRows i stocks)
      = Finset.Icc (i + 2) (i + 1 + stocks.length) := by
  induction stocks with
  | nil =>
      intro i
      rw [writeRows]
      rw [show usedRows [] = ∅ from rfl, eq_comm]
      exact Finset.Icc_eq_empty (by simp)
  | cons s rest ih =>
      intro i
      rw [writeRows, usedRows_append, usedRows_rowCells, ih (i + 1)]
      ext x
      simp only [Finset.mem_union, Finset.mem_singleton, Finset.mem_Icc,
        List.length_cons]
      omega

lemma filter_rowCells_self (r : Nat) (s : StockData) :
    (rowCells r s).filter (fun p => rowOfAddr p.1 == r) = rowCells r s := by
  simp [rowCells, List.filter, rowOfAddr_cellAddr]

lemma filter_rowCells_ne (r r' : Nat) (s : StockData) (h : r ≠ r') :
    (rowCells r s).filter (fun p => rowOfAddr p.1 == r') = [] := by
  have hf : (r == r') = false := beq_eq_false_iff_ne.mpr h
  simp [rowCells, List.filter, rowOfAddr_cellAddr, hf]

lemma filter_headerWrites_ne (r : Nat) (h : r ≠ 1) :
    headerWrites.filter (fun p => rowOfAddr p.1 == r) = [] := by
  have hf : ((1 : Nat) == r) = false := beq_eq_false_iff_ne.mpr (Ne.symm h)
  rw [headerWrites_eq]
  simp [List.filter, hf, show rowOfAddr "A1" = 1 from rfl,
    show rowOfAddr "B1" = 1 from rfl, show rowOfAddr "C1" = 1 from rfl,
    show rowOfAddr "D1" = 1 from rfl, show rowOfAddr "E1" = 1 from rfl,
    show rowOfAddr "F1" = 1 from rfl]

lemma filter_headerWrites_one :
    headerWrites.filter (fun p => rowOfAddr p.1 == 1) = headerWrites := by
  decide

lemma filter_writeRows_lt (stocks : List StockData) :
    ∀ i r, r < i + 2 →
      (writeRows i stocks).filter (fun p => rowOfAddr p.1 == r) = [] := by
  induction stocks with
  | nil => intro i r _; rfl
  | cons s rest ih =>
      intro i r h
      rw [writeRows, List.filter_append,
        filter_rowCells_ne _ _ _ (by omega : i + 2 ≠ r), ih (i + 1) r (by omega)]
      rfl

lemma filter_writeRows_get (stocks : List StockData) :
    ∀ i k (h : k < stocks.length),
      (writeRows i stocks).filter (fun p => rowOfAddr p.1 == i + k + 2)
        = rowCells (i + k + 2) (stocks.get ⟨k, h⟩) := by
  induction stocks with
  | nil => intro i k h; exact absurd h (by simp)
  | cons s rest ih =>
      intro i k h
      rw [writeRows, List.filter_append]
      cases k with
      | zero =>
          rw [show i + 0 + 2 = i + 2 from by omega, filter_rowCells_self,
            filter_writeRows_lt rest (i + 1) (i + 2) (by omega)]
          simp [List.get]
      | succ k =>
          rw [filter_rowCells_ne _ _ _ (by omega : i + 2 ≠ i + (k + 1) + 2),
            show i + (k + 1) + 2 = (i + 1) + k + 2 from by omega,
            ih (i + 1) k (by simpa using h)]
          simp [List.get]

/-! ## Claim theorems -/

/-- C1: for every input list and every position `i` (0-indexed), the data
row at spreadsheet row `i + 2` contains exactly that entry's six field
values in the fixed column order, columns `A`–`F`, the string fields as
text and the three float fields as numbers, with no transformation. -/
theorem claim_C1_data_rows (stocks : List StockData) (i : Nat)
    (h : i < stocks.length) :
    (generateSheetMem stocks).filter (fun p => rowOfAddr p.1 == i + 2)
      = [(cellAddr 'A' (i + 2), CellValue.str (stocks.get ⟨i, h⟩).ticker),
         (cellAddr 'B' (i + 2), CellValue.str (stocks.get ⟨i, h⟩).tickerName),
         (cellAddr 'C' (i + 2), CellValue.str (stocks.get ⟨i, h⟩).latestPrice),
         (cellAddr 'D' (i + 2), CellValue.num (stocks.get ⟨i, h⟩).pointsChange),
         (cellAddr 'E' (i + 2), CellValue.num (stocks.get ⟨i, h⟩).percentageChange),
         (cellAddr 'F' (i + 2), CellValue.num (stocks.get ⟨i, h⟩).tradedOfMktCap)] := by
  rw [generateSheetMem, List.filter_append, filter_headerWrites_ne _ (by omega),
    show i + 2 = 0 + i + 2 from by omega, filter_writeRows_get stocks 0 i h]
  rfl

/-- Witness for C1 at a concrete one-entry list and position 0. -/
theorem claim_C1_data_rows_witness :
    (generateSheetMem [⟨"ABC", "Alpha", "120.5", 1, 2, 3⟩]).filter
        (fun p => rowOfAddr p.1 == 2)
      = [(cellAddr 'A' 2, CellValue.str "ABC"),
         (cellAddr 'B' 2, CellValue.str "Alpha"),
         (cellAddr 'C' 2, CellValue.str "120.5"),
         (cellAddr 'D' 2, CellValue.num 1),
         (cellAddr 'E' 2, CellValue.num 2),
         (cellAddr 'F' 2, CellValue.num 3)] :=
  claim_C1_data_rows [⟨"ABC", "Alpha", "120.5", 1, 2, 3⟩] 0 (by decide)

/-- C2: for every input list of `N` entries, the produced sheet has
exactly `N + 1` non-empty rows — rows `1` through `N + 1` and no others. -/
theorem claim_C2_row_count (stocks : List StockData) :
    usedRows (generateSheetMem stocks) = Finset.Icc 1 (stocks.length + 1) ∧
    (usedRows (generateSheetMem stocks)).card = stocks.length + 1 := by
  have hrows : usedRows (generateSheetMem stocks)
      = Finset.Icc 1 (stocks.length + 1) := by
    rw [generateSheetMem, usedRows_append, usedRows_headerWrites,
      usedRows_writeRows stocks 0]
    ext x
    simp only [Finset.mem_union, Finset.mem_singleton, Finset.mem_Icc]
    omega
  refine ⟨hrows, ?_⟩
  rw [hrows, Nat.card_Icc]
  omega

/-- C3: for every input list (the empty one included), row 1 of the
produced sheet holds exactly the six fixed header labels in cells `A1`
through `F1`, in that order, independent of the input data. -/
theorem claim_C3_header_row (stocks : List StockData) :
    (generateSheetMem stocks).filter (fun p => rowOfAddr p.1 == 1)
      = [("A1", CellValue.str "Ticker"), ("B1", CellValue.str "Ticker Name"),
         ("C1", CellValue.str "Latest Price"),
         ("D1", CellValue.str "Points Change"),
         ("E1", CellValue.str "Percentage Change"),
         ("F1", CellValue.str "Traded Of Mkt Cap")] := by
  rw [generateSheetMem, List.filter_append, filter_headerWrites_one,
    filter_writeRows_lt stocks 0 1 (by omega), headerWrites_eq]
  simp

/-- C4: the in-memory variant and the streaming variant produce the same
sheet content — identical sheet name and identical write lists, cell for
cell. -/
theorem claim_C4_variants_equal (stocks : List StockData) :
    generateSheetNameMem = generateSheetNameStream ∧
    generateSheetMem stocks = generateSheetStream stocks := by
  constructor
  · decide
  · rw [generateSheetMem, generateSheetStream]
    have hrow : ∀ (s : StockData) (r : Nat),
        rowCells r s = setRowA r (streamRowData s) := by
      intro s r
      show _ = ([(columnName 1 ++ Nat.repr r, CellValue.str s.ticker),
        (columnName 2 ++ Nat.repr r, CellValue.str s.tickerName),
        (columnName 3 ++ Nat.repr r, CellValue.str s.latestPrice),
        (columnName 4 ++ Nat.repr r, CellValue.num s.pointsChange),
        (columnName 5 ++ Nat.repr r, CellValue.num s.percentageChange),
        (columnName 6 ++ Nat.repr r, CellValue.num s.tradedOfMktCap)] : Sheet)
      rfl
    have hhead : headerWrites = setRowA 1 (headers.map CellValue.str) := by
      decide
    have hrows : ∀ rest : List StockData, ∀ i,
        writeRows i rest = writeRowsStream i rest := by
      intro rest
      induction rest with
      | nil => intro i; rfl
      | cons s r ih =>
          intro i
          rw [writeRows, writeRowsStream, ih (i + 1), hrow]
    rw [hrows stocks 0, hhead]

/-- C7: given zero entries the writer succeeds (when the two filesystem
calls succeed, emptiness itself is not an error), and the produced sheet
is the header row alone — its only non-empty row is row 1. -/
theorem claim_C7_empty_input (w : FSWorld) (hm : w.mkdirAllOk = true)
    (hs : w.saveAsOk = true) :
    (generateExcelFileRun w []).result = Except.ok excelGeneratorFilePath ∧
    (generateExcelFileRun w []).savedSheet = some (sheetName, headerWrites) ∧
    usedRows (generateSheetMem []) = {1} := by
  refine ⟨?_, ?_, ?_⟩
  · simp [generateExcelFileRun, hm, hs]
  · simp [generateExcelFileRun, hm, hs, generateSheetMem, writeRows,
      generateSheetNameMem]
  · rw [show generateSheetMem [] = headerWrites by
      simp [generateSheetMem, writeRows]]
    exact usedRows_headerWrites

/-- Witness for C7 at the concrete world where both filesystem calls
succeed. -/
theorem claim_C7_empty_input_witness :
    (generateExcelFileRun ⟨true, true⟩ []).result
        = Except.ok excelGeneratorFilePath ∧
    (generateExcelFileRun ⟨true, true⟩ []).savedSheet
        = some (sheetName, headerWrites) ∧
    usedRows (generateSheetMem []) = {1} :=
  claim_C7_empty_input ⟨true, true⟩ rfl rfl

/-- C8: the writer always attempts `MkdirAll` on the parent directory of
the target path (which is the configured data directory) first; a
directory-creation failure is reported as its own error shape and the save
is then never attempted; any attempted save targets the configured path
and happens only after a successful `MkdirAll`. -/
theorem claim_C8_mkdir_before_save (w : FSWorld) (stocks : List StockData) :
    filepathDir excelGeneratorFilePath = dataDir ∧
    (generateExcelFileRun w stocks).events.head?
        = some (FSEvent.mkdirAll (filepathDir excelGeneratorFilePath)) ∧
    (w.mkdirAllOk = false →
      (generateExcelFileRun w stocks).result
          = Except.error (GenError.createDir "failed to create directory") ∧
      ∀ p, FSEvent.saveAs p ∉ (generateExcelFileRun w stocks).events) ∧
    (∀ p, FSEvent.saveAs p ∈ (generateExcelFileRun w stocks).events →
      p = excelGeneratorFilePath ∧ w.mkdirAllOk = true) := by
  refine ⟨by decide, ?_⟩
  cases w with
  | mk m s => cases m <;> cases s <;> simp [generateExcelFileRun]

/-- Witness for C8 at the concrete world where directory creation fails. -/
theorem claim_C8_mkdir_before_save_witness :
    (generateExcelFileRun ⟨false, true⟩ []).result
        = Except.error (GenError.createDir "failed to create directory") ∧
    ∀ p, FSEvent.saveAs p ∉ (generateExcelFileRun ⟨false, true⟩ []).events :=
  (claim_C8_mkdir_before_save ⟨false, true⟩ []).2.2.1 rfl

/-- C5: `FetchStockData` returns the entry list under the `response` key
exactly when the GET completed, the status is 200 and the body decodes;
each of the three failure kinds is reported with its own error shape, and
on each of them no entry list is returned. -/
theorem claim_C5_fetch_contract (r : HTTPResult) :
    (∀ msg, r = HTTPResult.transportErr msg →
        fetchStockData r = Except.error (FetchError.transport msg)) ∧
    (∀ resp, r = HTTPResult.ok resp → resp.statusCode ≠ 200 →
        fetchStockData r = Except.error (FetchError.status resp.statusCode)) ∧
    (∀ resp, r = HTTPResult.ok resp → resp.statusCode = 200 →
        resp.body = none →
        ∃ m, fetchStockData r = Except.error (FetchError.decode m)) ∧
    (∀ resp j m, r = HTTPResult.ok resp → resp.statusCode = 200 →
        resp.body = some j → decodeStockAPIResponse j = Except.error m →
        fetchStockData r = Except.error (FetchError.decode m)) ∧
    (∀ l, fetchStockData r = Except.ok l ↔
        ∃ resp j sr, r = HTTPResult.ok resp ∧ resp.statusCode = 200 ∧
          resp.body = some j ∧ decodeStockAPIResponse j = Except.ok sr ∧
          l = sr.response) := by
  refine ⟨?_, ?_, ?_, ?_, ?_⟩
  · rintro msg rfl
    rfl
  · rintro resp rfl hst
    simp [fetchStockData, fetchStockDataRun, httpStatusOK, hst]
  · rintro resp rfl hst hb
    exact ⟨"invalid JSON",
      by simp [fetchStockData, fetchStockDataRun, httpStatusOK, hst, hb]⟩
  · rintro resp j m rfl hst hb hd
    simp [fetchStockData, fetchStockDataRun, httpStatusOK, hst, hb, hd]
  · intro l
    constructor
    · intro hok
      cases r with
      | transportErr msg =>
          simp [fetchStockData, fetchStockDataRun] at hok
      | ok resp =>
          by_cases hst : resp.statusCode = 200
          · cases hb : resp.body with
            | none =>
                rw [show fetchStockData (HTTPResult.ok resp)
                    = Except.error (FetchError.decode "invalid JSON") from by
                  simp [fetchStockData, fetchStockDataRun, httpStatusOK, hst, hb]]
                  at hok
                exact absurd hok (by simp)
            | some j =>
                cases hd : decodeStockAPIResponse j with
                | error m =>
                    rw [show fetchStockData (HTTPResult.ok resp)
                        = Except.error (FetchError.decode m) from by
                      simp [fetchStockData, fetchStockDataRun, httpStatusOK,
                        hst, hb, hd]] at hok
                    exact absurd hok (by simp)
                | ok sr =>
                    refine ⟨resp, j, sr, rfl, hst, hb, hd, ?_⟩
                    rw [show fetchStockData (HTTPResult.ok resp)
                        = Except.ok sr.response from by
                      simp [fetchStockData, fetchStockDataRun, httpStatusOK,
                        hst, hb, hd]] at hok
                    exact (Except.ok.injEq _ _ ▸ hok).symm
          · rw [show fetchStockData (HTTPResult.ok resp)
                = Except.error (FetchError.status resp.statusCode) from by
              simp [fetchStockData, fetchStockDataRun, httpStatusOK, hst]] at hok
            exact absurd hok (by simp)
    · rintro ⟨resp, j, sr, rfl, hst, hb, hd, rfl⟩
      simp [fetchStockData, fetchStockDataRun, httpStatusOK, hst, hb, hd]

/-- Witness for C5: each of the three failure shapes and one success, at
concrete inputs. -/
theorem claim_C5_fetch_contract_witness :
    fetchStockData (HTTPResult.transportErr "connection refused")
        = Except.error (FetchError.transport "connection refused") ∧
    fetchStockData (HTTPResult.ok ⟨404, none⟩)
        = Except.error (FetchError.status 404) ∧
    fetchStockData
        (HTTPResult.ok ⟨200, some (Json.obj [("response", Json.arr [])])⟩)
        = Except.ok [] :=
  ⟨(claim_C5_fetch_contract (HTTPResult.transportErr "connection refused")).1
      "connection refused" rfl,
   (claim_C5_fetch_contract (HTTPResult.ok ⟨404, none⟩)).2.1
      ⟨404, none⟩ rfl (by decide),
   ((claim_C5_fetch_contract
        (HTTPResult.ok ⟨200, some (Json.obj [("response", Json.arr [])])⟩)).2.2.2.2
      []).mpr
      ⟨⟨200, some (Json.obj [("response", Json.arr [])])⟩,
        Json.obj [("response", Json.arr [])], ⟨[]⟩, rfl, rfl, rfl, rfl, rfl⟩⟩

/-- C6: whenever `FetchStockData` returns an error, `main` terminates with
the fetch failure, never invokes the writer, and no file write is
attempted. -/
theorem claim_C6_no_write_on_fetch_error (w : World) (e : FetchError)
    (h : fetchStockData w.http = Except.error e) :
    (mainRun w).1 = MainOutcome.fatalFetch e ∧
    (mainRun w).2 = [MainEvent.fetchCall] ∧
    MainEvent.generateCall ∉ (mainRun w).2 ∧
    (∀ p, MainEvent.fsEvent (FSEvent.saveAs p) ∉ (mainRun w).2) := by
  have hm : mainRun w = (MainOutcome.fatalFetch e, [MainEvent.fetchCall]) := by
    rw [mainRun, h]
  simp [hm]

/-- Witness for C6 at a concrete world whose HTTP response has status
404. -/
theorem claim_C6_no_write_on_fetch_error_witness :
    (mainRun ⟨HTTPResult.ok ⟨404, none⟩, ⟨true, true⟩⟩).1
        = MainOutcome.fatalFetch (FetchError.status 404) ∧
    (mainRun ⟨HTTPResult.ok ⟨404, none⟩, ⟨true, true⟩⟩).2
        = [MainEvent.fetchCall] ∧
    MainEvent.generateCall ∉ (mainRun ⟨HTTPResult.ok ⟨404, none⟩, ⟨true, true⟩⟩).2 ∧
    (∀ p, MainEvent.fsEvent (FSEvent.saveAs p)
        ∉ (mainRun ⟨HTTPResult.ok ⟨404, none⟩, ⟨true, true⟩⟩).2) :=
  claim_C6_no_write_on_fetch_error ⟨HTTPResult.ok ⟨404, none⟩, ⟨true, true⟩⟩
    (FetchError.status 404) rfl

/-- C9: on every execution path after `http.Get` succeeds — failing status
check, failing decode, or success — the deferred `resp.Body.Close()` runs
exactly once before the return. -/
theorem claim_C9_body_closed_once (resp : HTTPResponse) :
    ((fetchStockDataRun (HTTPResult.ok resp)).2.count FetchEvent.closeBody)
      = 1 := by
  by_cases hst : resp.statusCode = 200
  · cases hb : resp.body with
    | none => simp [fetchStockDataRun, httpStatusOK, hst, hb]
    | some j =>
        cases hd : decodeStockAPIResponse j with
        | error m => simp [fetchStockDataRun, httpStatusOK, hst, hb, hd]
        | ok sr => simp [fetchStockDataRun, httpStatusOK, hst, hb, hd]
  · simp [fetchStockDataRun, httpStatusOK, hst]

/-- Folding the wrapper decoder over members none of which is a non-null
`response` leaves the accumulator unchanged and raises no error. -/
lemma foldlM_setResponseField_skip (fields : List (String × Json)) :
    ∀ acc : StockAPIResponse,
      (∀ kv ∈ fields, keyMatches kv.1 "response" = false ∨ kv.2 = Json.null) →
      fields.foldlM (fun acc kv => setResponseField acc kv.1 kv.2) acc
        = Except.ok acc := by
  induction fields with
  | nil => intro acc _; rfl
  | cons kv rest ih =>
      intro acc h
      have hstep : setResponseField acc kv.1 kv.2 = Except.ok acc := by
        rcases h kv (by simp) with hk | hv
        · simp [setResponseField, hk]
        · simp [setResponseField, hv]
      rw [List.foldlM_cons, hstep]
      show rest.foldlM (fun acc kv => setResponseField acc kv.1 kv.2) acc
        = Except.ok acc
      exact ih acc fun kv hkv => h kv (by simp [hkv])

/-- C10: a 200 response whose body is a JSON object lacking the
`response` key (or mapping it to null) is not an error: the fetch returns
the empty list, and the writer then builds a header-only sheet. -/
theorem claim_C10_missing_response_key (fields : List (String × Json))
    (h : ∀ kv ∈ fields, keyMatches kv.1 "response" = false ∨ kv.2 = Json.null) :
    fetchStockData (HTTPResult.ok ⟨200, some (Json.obj fields)⟩)
        = Except.ok [] ∧
    generateSheetMem [] = headerWrites ∧
    (generateExcelFileRun ⟨true, true⟩ []).savedSheet
        = some (sheetName, headerWrites) := by
  have hdec : decodeStockAPIResponse (Json.obj fields)
      = Except.ok { response := [] } := by
    rw [decodeStockAPIResponse]
    exact foldlM_setResponseField_skip fields { response := [] } h
  refine ⟨?_, ?_, ?_⟩
  · simp [fetchStockData, fetchStockDataRun, httpStatusOK, hdec]
  · simp [generateSheetMem, writeRows]
  · simp [generateExcelFileRun, generateSheetMem, writeRows,
      generateSheetNameMem]

/-- Witness for C10 at the concrete body mapping `response` to null. -/
theorem claim_C10_missing_response_key_witness :
    fetchStockData
        (HTTPResult.ok ⟨200, some (Json.obj [("response", Json.null)])⟩)
        = Except.ok [] ∧
    generateSheetMem [] = headerWrites ∧
    (generateExcelFileRun ⟨true, true⟩ []).savedSheet
        = some (sheetName, headerWrites) :=
  claim_C10_missing_response_key [("response", Json.null)]
    (by intro kv hkv; simp at hkv; rw [hkv]; exact Or.inr rfl)

end ExcelPoc
